import Mathlib

/-!
# Verification of the adaptive video transcoding pipeline

Shallow embedding of `src/lib/video-streaming.ts`: the media prober
(`FFmpegProcessor.probe`), the thumbnail extractor
(`FFmpegProcessor.generateThumbnails`), the HLS playlist builder
(`FFmpegProcessor.createHLSPlaylist`), the variant planner
(`generateOptimalVariants`) and the job queue (`VideoProcessingQueue`).

External-process invocations are modelled by injected outcome functions
(exit codes and parsed output), so every definition is executable; the
sequencing, error messages and state updates follow the TypeScript source.
-/

namespace VideoStreaming

/-- A planned rendition, mirroring the `VideoVariant` interface of the source
(`name`, `width`, `height`, `bitrate`, `codec`, `profile`, `level`,
`bufsize`, `maxrate`, `fps`). -/
structure VideoVariant where
  name : String
  width : Nat
  height : Nat
  bitrate : Nat
  codec : String
  profile : String
  level : String
  bufsize : Nat
  maxrate : Nat
  fps : Nat
deriving DecidableEq, Repr

/-- One entry of the `qualityConfigs` ladder inside `generateOptimalVariants`. -/
structure QualityConfig where
  name : String
  width : Nat
  height : Nat
  bitrate : Nat
  maxSourceHeight : Nat
deriving DecidableEq, Repr

/-- The fixed ladder `qualityConfigs` of `generateOptimalVariants`. -/
def qualityConfigs : List QualityConfig :=
  [ ⟨"360p", 640, 360, 800, 360⟩
  , ⟨"480p", 854, 480, 1200, 480⟩
  , ⟨"720p", 1280, 720, 2500, 720⟩
  , ⟨"1080p", 1920, 1080, 5000, 1080⟩ ]

/-- The variant pushed for a qualifying ladder config: codec `libx264`,
profile `high`, level `4.0`, `bufsize = bitrate * 2`, `maxrate = bitrate * 1.5`
(integral for every ladder bitrate, written `bitrate * 3 / 2`), `fps = 30`. -/
def ladderVariant (c : QualityConfig) : VideoVariant :=
  { name := c.name
  , width := c.width
  , height := c.height
  , bitrate := c.bitrate
  , codec := "libx264"
  , profile := "high"
  , level := "4.0"
  , bufsize := c.bitrate * 2
  , maxrate := c.bitrate * 3 / 2
  , fps := 30 }

/-- The fallback variant pushed when no ladder config qualifies:
name `auto`, `min(width,854) × min(height,480)`, 1200 kbps. -/
def autoVariant (width height : Nat) : VideoVariant :=
  { name := "auto"
  , width := min width 854
  , height := min height 480
  , bitrate := 1200
  , codec := "libx264"
  , profile := "high"
  , level := "4.0"
  , bufsize := 2400
  , maxrate := 1800
  , fps := 30 }

/-- The planner `generateOptimalVariants(width, height, duration)`: keep each ladder config
with `height >= config.maxSourceHeight`; if none qualifies, emit the single
fallback `auto` variant. `duration` is accepted and unused, as in the source. -/
def generateOptimalVariants (width height : Nat) (duration : ℚ) : List VideoVariant :=
  let _ := duration
  let variants := (qualityConfigs.filter (fun c => c.maxSourceHeight ≤ height)).map ladderVariant
  if variants.isEmpty then [autoVariant width height] else variants

/-! ## Media inspector: `FFmpegProcessor.probe` -/

/-- One entry of the parsed ffprobe `streams` array; absent JSON fields are
`none`. -/
structure FFprobeStream where
  codec_type : String
  codec_name : Option String
  width : Option Nat
  height : Option Nat
  r_frame_rate : Option String
deriving DecidableEq, Repr

/-- The parsed ffprobe `format` object; absent JSON fields are `none`. -/
structure FFprobeFormat where
  duration : Option ℚ
  bit_rate : Option Nat
  format_name : Option String
deriving DecidableEq, Repr

/-- The parsed JSON document ffprobe prints with `-show_format -show_streams`. -/
structure FFprobeData where
  streams : List FFprobeStream
  format : FFprobeFormat
deriving DecidableEq, Repr

/-- The video/audio codec pair of a probe result. -/
structure Codecs where
  video : String
  audio : String
deriving DecidableEq, Repr

/-- The record `FFmpegProcessor.probe` resolves with. -/
structure ProbeResult where
  duration : ℚ
  width : Nat
  height : Nat
  bitrate : Nat
  fps : ℚ
  format : String
  codecs : Codecs
deriving DecidableEq, Repr

/-- The source computes `fps` by evaluating the fraction string
`r_frame_rate` (such as `"30000/1001"`); modelled as a numerator/denominator
parse, with division by zero giving 0 as in ℚ. -/
def evalFrameRate (s : String) : ℚ :=
  match s.splitOn "/" with
  | [a, b] => (a.toNat?.getD 0 : ℚ) / (b.toNat?.getD 0 : ℚ)
  | [a] => (a.toNat?.getD 0 : ℚ)
  | _ => 0

/-- The prober `FFmpegProcessor.probe`: rejects when ffprobe exits non-zero, when its
output fails to parse (`parsed = none`), or when no stream has
`codec_type = "video"`; otherwise resolves with duration/bitrate defaulted
to 0 and audio codec defaulted to `""` when absent. -/
def probe (exitCode : Int) (parsed : Option FFprobeData) : Except String ProbeResult :=
  if exitCode ≠ 0 then
    .error ("FFprobe failed with code " ++ toString exitCode)
  else
    match parsed with
    | none => .error "Failed to parse FFprobe output"
    | some data =>
      match data.streams.find? (fun s => s.codec_type = "video") with
      | none => .error "No video stream found"
      | some videoStream =>
        let audioStream := data.streams.find? (fun s => s.codec_type = "audio")
        .ok
          { duration := data.format.duration.getD 0
          , width := videoStream.width.getD 0
          , height := videoStream.height.getD 0
          , bitrate := data.format.bit_rate.getD 0
          , fps := evalFrameRate (videoStream.r_frame_rate.getD "0/1")
          , format := data.format.format_name.getD ""
          , codecs :=
            { video := videoStream.codec_name.getD ""
            , audio := (audioStream.bind (fun s => s.codec_name)).getD "" } }

/-! ## Thumbnails: `FFmpegProcessor.generateThumbnails` -/

/-- The timestamps the thumbnail loop requests: `interval * i` for
`i = 1..count` with `interval = duration / (count + 1)`. -/
def thumbnailTimestamps (duration : ℚ) (count : Nat) : List ℚ :=
  let interval := duration / (count + 1)
  (List.range' 1 count).map (fun i : Nat => interval * (i : ℚ))

/-- The output path of the `i`-th thumbnail,
`path.join(outputDir, thumbnail_i.jpg)`. -/
def thumbnailPath (outputDir : String) (i : Nat) : String :=
  outputDir ++ "/thumbnail_" ++ toString i ++ ".jpg"

/-- The body of the `for` loop in `generateThumbnails` over the remaining
indices: one single-frame extraction per index, failing the whole step with
`Thumbnail generation failed with code c` on the first non-zero exit code.
`thumbExit` gives the exit code of the extraction at a timestamp/path. -/
def thumbSteps (thumbExit : ℚ → String → Int) (outputDir : String) (interval : ℚ) :
    List Nat → Except String (List String)
  | [] => .ok []
  | i :: rest =>
    let timestamp := interval * i
    let outputPath := thumbnailPath outputDir i
    let code := thumbExit timestamp outputPath
    if code = 0 then
      (thumbSteps thumbExit outputDir interval rest).map (fun ts => outputPath :: ts)
    else
      .error ("Thumbnail generation failed with code " ++ toString code)

/-- The extractor `FFmpegProcessor.generateThumbnails`: probes the input (the probe outcome
is injected), computes `interval = duration / (count + 1)` and runs one
extraction per `i = 1..count`. -/
def generateThumbnails (probeRes : Except String ProbeResult)
    (thumbExit : ℚ → String → Int) (outputDir : String) (count : Nat) :
    Except String (List String) :=
  match probeRes with
  | .error e => .error e
  | .ok info =>
    let duration := info.duration
    let interval := duration / (count + 1)
    thumbSteps thumbExit outputDir interval (List.range' 1 count)

/-! ## Manifest: `FFmpegProcessor.createHLSPlaylist` -/

/-- The two lines appended to the master playlist for a variant. -/
def streamInfLines (v : VideoVariant) : String :=
  "#EXT-X-STREAM-INF:BANDWIDTH=" ++ toString (v.bitrate * 1000) ++
    ",RESOLUTION=" ++ toString v.width ++ "x" ++ toString v.height ++ "\n" ++
    v.name ++ "/index.m3u8\n"

/-- The `for` loop of `createHLSPlaylist`: encodes each variant in turn
(`hlsExit` gives the segmenting run's exit code) and accumulates the master
playlist content; the first failing variant rejects the whole call with
`HLS generation failed for name`. -/
def hlsLoop (hlsExit : VideoVariant → Int) (masterContent : String) :
    List VideoVariant → Except String String
  | [] => .ok masterContent
  | v :: rest =>
    if hlsExit v = 0 then
      hlsLoop hlsExit (masterContent ++ streamInfLines v) rest
    else
      .error ("HLS generation failed for " ++ v.name)

/-- The builder `FFmpegProcessor.createHLSPlaylist`: returns the master playlist path and
its written content, or the first variant failure. -/
def createHLSPlaylist (hlsExit : VideoVariant → Int) (outputDir : String)
    (variants : List VideoVariant) : Except String (String × String) :=
  let masterPlaylistPath := outputDir ++ "/master.m3u8"
  (hlsLoop hlsExit "#EXTM3U\n#EXT-X-VERSION:6\n" variants).map
    (fun content => (masterPlaylistPath, content))

/-! ## Pipeline: `processVideoWithAdaptiveStreaming` -/

/-- The outcome of every external-process invocation a pipeline run makes,
injected so the pipeline itself is a pure function. -/
structure StageOutcomes where
  probeExit : Int
  probeParsed : Option FFprobeData
  thumbExit : ℚ → String → Int
  ffmpegAvailable : Bool
  previewExit : Int
  hlsExit : VideoVariant → Int
deriving Inhabited

/-- The `options` argument of `processVideoWithAdaptiveStreaming` (fields the
pipeline reads). -/
structure ProcessOptions where
  generateThumbnails : Option Bool := none
  thumbnailCount : Option Nat := none
  generatePreview : Bool := false
deriving DecidableEq, Repr

/-- The count `options.thumbnailCount || 5`: JavaScript or-default also replaces an explicit 0. -/
def effectiveThumbnailCount (o : ProcessOptions) : Nat :=
  match o.thumbnailCount with
  | some n => if n = 0 then 5 else n
  | none => 5

/-- The flag check, true unless `options.generateThumbnails` is literally `false`. -/
def thumbnailsEnabled (o : ProcessOptions) : Bool :=
  o.generateThumbnails ≠ some false

/-- The payload `processVideoWithAdaptiveStreaming` resolves with. -/
structure PipelineResult where
  hlsPlaylist : String
  thumbnails : List String
  preview : Option String
  variants : List VideoVariant
deriving DecidableEq, Repr

/-- The transcoder `FFmpegProcessor.transcode` as used for the preview clip: fails when the
ffmpeg binary is unavailable, otherwise succeeds iff the process exits 0.
(The preview invocation passes no progress callback.) -/
def transcodeOutcome (io : StageOutcomes) : Except String Unit :=
  if io.ffmpegAvailable then
    if io.previewExit = 0 then .ok ()
    else .error ("FFmpeg process exited with code " ++ toString io.previewExit)
  else .error "FFmpeg not found. Please install FFmpeg."

/-- The pipeline `processVideoWithAdaptiveStreaming(inputPath, outputDir, options)`:
probe, plan variants, thumbnails (unless disabled), preview (if requested),
HLS variants. Returns the result (or the first stage error, which the source
rethrows) together with the list of progress percentages reported to
`onProgress`, in order. -/
def processVideoWithAdaptiveStreaming (io : StageOutcomes) (outputDir : String)
    (opts : ProcessOptions) : Except String PipelineResult × List Nat :=
  match probe io.probeExit io.probeParsed with
  | .error e => (.error e, [5])
  | .ok videoInfo =>
    let variants := generateOptimalVariants videoInfo.width videoInfo.height videoInfo.duration
    let thumbLog : List Nat := if thumbnailsEnabled opts then [20] else []
    let thumbRes : Except String (List String) :=
      if thumbnailsEnabled opts then
        generateThumbnails (probe io.probeExit io.probeParsed) io.thumbExit
          (outputDir ++ "/thumbnails") (effectiveThumbnailCount opts)
      else .ok []
    match thumbRes with
    | .error e => (.error e, [5, 10] ++ thumbLog)
    | .ok thumbnails =>
      let previewLog : List Nat := if opts.generatePreview then [30] else []
      let previewRes : Except String (Option String) :=
        if opts.generatePreview then
          (transcodeOutcome io).map (fun _ => some (outputDir ++ "/preview.mp4"))
        else .ok none
      match previewRes with
      | .error e => (.error e, [5, 10] ++ thumbLog ++ previewLog)
      | .ok preview =>
        match createHLSPlaylist io.hlsExit outputDir variants with
        | .error e => (.error e, [5, 10] ++ thumbLog ++ previewLog ++ [40])
        | .ok hls =>
          (.ok { hlsPlaylist := hls.1
               , thumbnails := thumbnails
               , preview := preview
               , variants := variants },
           [5, 10] ++ thumbLog ++ previewLog ++ [40, 100])

/-! ## Job queue: `VideoProcessingQueue` -/

/-- The status union of a queue entry in the source:
`'queued' | 'processing' | 'completed' | 'error'`. -/
inductive JobStatus where
  | queued
  | processing
  | completed
  | error
deriving DecidableEq, Repr

/-- One value of the `VideoProcessingQueue.queue` map. -/
structure JobEntry where
  status : JobStatus
  progress : Nat
  result : Option PipelineResult := none
  error : Option String := none
  startTime : Option Nat := none
deriving DecidableEq, Repr

/-- The registry: the `Map<string, JobEntry>` as an insertion-ordered
association list with unique keys. -/
abbrev Queue := List (String × JobEntry)

/-- Lookup, as `Map.get`. -/
def qget (q : Queue) (jobId : String) : Option JobEntry :=
  (List.find? (fun p => p.1 = jobId) q).map Prod.snd

/-- Store, as `Map.set`: replace in place if the key exists, else append. -/
def qset (q : Queue) (jobId : String) (e : JobEntry) : Queue :=
  if (List.find? (fun p => p.1 = jobId) q).isSome then
    List.map (fun p => if p.1 = jobId then (jobId, e) else p) q
  else
    q ++ [(jobId, e)]

/-- Removal, as `Map.delete`. -/
def qdelete (q : Queue) (jobId : String) : Queue :=
  List.filter (fun p => ¬ p.1 = jobId) q

/-- The query `VideoProcessingQueue.getJobStatus`. -/
def getJobStatus (q : Queue) (jobId : String) : Option JobEntry :=
  qget q jobId

/-- Cancellation `VideoProcessingQueue.cancelJob`: deletes the entry and returns `true`
iff the job exists and is still `queued`; otherwise returns `false` leaving
the registry untouched. -/
def cancelJob (q : Queue) (jobId : String) : Bool × Queue :=
  match qget q jobId with
  | some job =>
    if job.status = JobStatus.queued then (true, qdelete q jobId)
    else (false, q)
  | none => (false, q)

/-- Insertion: the registry effect of `VideoProcessingQueue.addJob`: unconditionally set the
entry to a fresh `queued` job (the pipeline is then started in the
background; no duplicate check is performed). -/
def addJob (q : Queue) (jobId : String) (startTime : Nat) : Queue :=
  qset q jobId { status := JobStatus.queued, progress := 0, startTime := some startTime }

/-- The `onProgress` closure in `processJob`: store the reported progress and
keep the status at `processing`. -/
def applyProgress (e : JobEntry) (p : Nat) : JobEntry :=
  { e with progress := p, status := JobStatus.processing }

/-- The runner `VideoProcessingQueue.processJob` as the sequence of entry values stored
for the job: first `status := processing`, then one store per `onProgress`
report, finally `completed` with `progress := 100` and the result, or
`error` with the message. -/
def processJobStates (io : StageOutcomes) (outputDir : String)
    (opts : ProcessOptions) (e0 : JobEntry) : List JobEntry :=
  let r := processVideoWithAdaptiveStreaming io outputDir opts
  let e1 := { e0 with status := JobStatus.processing }
  let states := List.scanl applyProgress e1 r.2
  let lastE := List.foldl applyProgress e1 r.2
  match r.1 with
  | .ok res =>
    states ++ [{ lastE with status := JobStatus.completed, progress := 100, result := some res }]
  | .error e =>
    states ++ [{ lastE with status := JobStatus.error, error := some e }]

/-- The full sequence of entry values stored for one job, from `addJob`'s
initial `queued` entry through the background `processJob` run. -/
def jobStates (io : StageOutcomes) (outputDir : String) (opts : ProcessOptions)
    (startTime : Nat) : List JobEntry :=
  let e0 : JobEntry := { status := JobStatus.queued, progress := 0, startTime := some startTime }
  e0 :: processJobStates io outputDir opts e0

/-- The variants the pipeline plans for a run: `generateOptimalVariants`
applied to the probe result (empty when the probe fails, in which case no
encode is attempted). -/
def plannedVariants (io : StageOutcomes) : List VideoVariant :=
  match probe io.probeExit io.probeParsed with
  | .ok info => generateOptimalVariants info.width info.height info.duration
  | .error _ => []

/-! ## Concrete runs used as witnesses -/

/-- A parsed ffprobe document for a 1920×1080, 600 s source with an audio
stream. -/
def sampleProbeData : FFprobeData :=
  { streams :=
      [ { codec_type := "video", codec_name := some "h264", width := some 1920
        , height := some 1080, r_frame_rate := some "30/1" }
      , { codec_type := "audio", codec_name := some "aac", width := none
        , height := none, r_frame_rate := none } ]
  , format := { duration := some 600, bit_rate := some 5000000, format_name := some "mp4" } }

/-- A parsed ffprobe document with no audio stream and a container that
omits duration and bitrate. -/
def sparseProbeData : FFprobeData :=
  { streams :=
      [ { codec_type := "video", codec_name := some "h264", width := some 640
        , height := some 480, r_frame_rate := some "25/1" } ]
  , format := { duration := none, bit_rate := none, format_name := none } }

/-- A run in which every external invocation succeeds. -/
def okOutcomes : StageOutcomes :=
  { probeExit := 0
  , probeParsed := some sampleProbeData
  , thumbExit := fun _ _ => 0
  , ffmpegAvailable := true
  , previewExit := 0
  , hlsExit := fun _ => 0 }

/-- A run in which exactly the `480p` variant encode fails (exit code 1) and
every other invocation succeeds. -/
def partialFailOutcomes : StageOutcomes :=
  { probeExit := 0
  , probeParsed := some sampleProbeData
  , thumbExit := fun _ _ => 0
  , ffmpegAvailable := true
  , previewExit := 0
  , hlsExit := fun v => if v.name = "480p" then 1 else 0 }

/-- A probe result used for thumbnail witnesses. -/
def sampleInfo : ProbeResult :=
  { duration := 100, width := 1920, height := 1080, bitrate := 5000000
  , fps := 30, format := "mp4", codecs := { video := "h264", audio := "aac" } }

/-- A registry with one queued and one processing job. -/
def sampleQueue : Queue :=
  [ ("a", { status := JobStatus.queued, progress := 0, startTime := some 0 })
  , ("b", { status := JobStatus.processing, progress := 40, startTime := some 1 }) ]

/-! ## Helper lemmas -/

/-- Case description of the planner output by source height region. -/
lemma generateOptimalVariants_eq (width height : Nat) (duration : ℚ) :
    generateOptimalVariants width height duration =
      if 1080 ≤ height then
        [ladderVariant ⟨"360p", 640, 360, 800, 360⟩,
         ladderVariant ⟨"480p", 854, 480, 1200, 480⟩,
         ladderVariant ⟨"720p", 1280, 720, 2500, 720⟩,
         ladderVariant ⟨"1080p", 1920, 1080, 5000, 1080⟩]
      else if 720 ≤ height then
        [ladderVariant ⟨"360p", 640, 360, 800, 360⟩,
         ladderVariant ⟨"480p", 854, 480, 1200, 480⟩,
         ladderVariant ⟨"720p", 1280, 720, 2500, 720⟩]
      else if 480 ≤ height then
        [ladderVariant ⟨"360p", 640, 360, 800, 360⟩,
         ladderVariant ⟨"480p", 854, 480, 1200, 480⟩]
      else if 360 ≤ height then
        [ladderVariant ⟨"360p", 640, 360, 800, 360⟩]
      else [autoVariant width height] := by
  by_cases h1080 : 1080 ≤ height
  · have h720 : 720 ≤ height := by omega
    have h480 : 480 ≤ height := by omega
    have h360 : 360 ≤ height := by omega
    simp [generateOptimalVariants, qualityConfigs, h1080, h720, h480, h360]
  · by_cases h720 : 720 ≤ height
    · have h480 : 480 ≤ height := by omega
      have h360 : 360 ≤ height := by omega
      simp [generateOptimalVariants, qualityConfigs, h1080, h720, h480, h360]
    · by_cases h480 : 480 ≤ height
      · have h360 : 360 ≤ height := by omega
        simp [generateOptimalVariants, qualityConfigs, h1080, h720, h480, h360]
      · by_cases h360 : 360 ≤ height
        · simp [generateOptimalVariants, qualityConfigs, h1080, h720, h480, h360]
        · simp [generateOptimalVariants, qualityConfigs, h1080, h720, h480, h360]

/-- One cons step of `qget`. -/
lemma qget_cons (p : String × JobEntry) (t : Queue) (jobId : String) :
    qget (p :: t) jobId = if p.1 = jobId then some p.2 else qget t jobId := by
  by_cases hp : p.1 = jobId <;> simp [qget, List.find?, hp]

/-- Deleting a key removes it from lookup. -/
lemma qget_qdelete (q : Queue) (jobId : String) : qget (qdelete q jobId) jobId = none := by
  induction q with
  | nil => rfl
  | cons p rest ih =>
    by_cases hp : p.1 = jobId
    · simpa [qdelete, List.filter, hp] using ih
    · simpa [qdelete, List.filter, hp, qget_cons] using ih

/-- Lookup after the in-place-replace branch of `qset`. -/
lemma qget_replace (q : Queue) (jobId : String) (e : JobEntry) :
    qget (List.map (fun p => if p.1 = jobId then (jobId, e) else p) q) jobId =
      if (List.find? (fun p => p.1 = jobId) q).isSome then some e else none := by
  induction q with
  | nil => rfl
  | cons p rest ih =>
    by_cases hp : p.1 = jobId
    · simp [qget_cons, List.find?, hp]
    · rw [List.map_cons, qget_cons,
        List.find?_cons_of_neg _ (by simpa using hp)]
      simp [hp, ih]

/-- Lookup after the append branch of `qset`. -/
lemma qget_append_single (q : Queue) (jobId : String) (e : JobEntry)
    (h : List.find? (fun p => p.1 = jobId) q = none) :
    qget (q ++ [(jobId, e)]) jobId = some e := by
  induction q with
  | nil => simp [qget_cons, qget]
  | cons p rest ih =>
    by_cases hp : p.1 = jobId
    · simp [List.find?, hp] at h
    · simp only [List.find?, hp, decide_eq_true_eq, if_false] at h
      rw [List.cons_append, qget_cons, if_neg hp]
      exact ih (by simpa [hp] using h)

/-- Setting a key makes it the looked-up value. -/
lemma qget_qset (q : Queue) (jobId : String) (e : JobEntry) :
    qget (qset q jobId e) jobId = some e := by
  unfold qset
  cases hf : List.find? (fun p => p.1 = jobId) q with
  | none => simp [hf, qget_append_single q jobId e hf]
  | some p => simp [hf, qget_replace q jobId e]

/-- The thumbnail loop succeeds iff every single extraction exits 0. -/
lemma thumbSteps_isOk_iff (f : ℚ → String → Int) (dir : String) (interval : ℚ)
    (l : List Nat) :
    (thumbSteps f dir interval l).isOk ↔
      ∀ i ∈ l, f (interval * i) (thumbnailPath dir i) = 0 := by
  induction l with
  | nil => simp [thumbSteps, Except.isOk, Except.toBool]
  | cons i rest ih =>
    by_cases hi : f (interval * i) (thumbnailPath dir i) = 0
    · simp only [thumbSteps, hi, if_true]
      cases hr : thumbSteps f dir interval rest <;>
        simp_all [Except.isOk, Except.map, Except.toBool]
    · simp [thumbSteps, hi, Except.isOk, Except.toBool]

/-- On success the thumbnail loop returns one path per index. -/
lemma thumbSteps_length (f : ℚ → String → Int) (dir : String) (interval : ℚ)
    (l : List Nat) (ts : List String)
    (h : thumbSteps f dir interval l = .ok ts) : ts.length = l.length := by
  induction l generalizing ts with
  | nil => simp [thumbSteps] at h; simp [← h]
  | cons i rest ih =>
    by_cases hi : f (interval * i) (thumbnailPath dir i) = 0
    · simp only [thumbSteps, hi, if_true] at h
      cases hr : thumbSteps f dir interval rest with
      | error e => rw [hr] at h; simp [Except.map] at h
      | ok ts' =>
        rw [hr] at h
        simp only [Except.map, Except.ok.injEq] at h
        subst h
        simp [ih ts' hr]
    · simp [thumbSteps, hi] at h

/-- The HLS loop succeeds iff every variant's segmenting run exits 0. -/
lemma hlsLoop_isOk_iff (hlsExit : VideoVariant → Int) (acc : String)
    (vs : List VideoVariant) :
    (hlsLoop hlsExit acc vs).isOk ↔ ∀ v ∈ vs, hlsExit v = 0 := by
  induction vs generalizing acc with
  | nil => simp [hlsLoop, Except.isOk, Except.toBool]
  | cons v rest ih =>
    by_cases hv : hlsExit v = 0
    · simp [hlsLoop, hv, ih]
    · simp [hlsLoop, hv, Except.isOk, Except.toBool]

/-- Progress values along the `onProgress` store sequence. -/
lemma progress_scanl (e : JobEntry) (log : List Nat) :
    (List.scanl applyProgress e log).map JobEntry.progress = e.progress :: log := by
  induction log generalizing e with
  | nil => simp
  | cons p rest ih => simp [List.scanl, applyProgress, ih]

/-- A successful pipeline run implies the probe and every variant encode
succeeded, and fixes the reported progress sequence. -/
lemma pipeline_ok_characterization (io : StageOutcomes) (outputDir : String)
    (opts : ProcessOptions)
    (hok : (processVideoWithAdaptiveStreaming io outputDir opts).1.isOk) :
    (probe io.probeExit io.probeParsed).isOk ∧
    (createHLSPlaylist io.hlsExit outputDir (plannedVariants io)).isOk ∧
    (processVideoWithAdaptiveStreaming io outputDir opts).2 =
      [5, 10] ++ (if thumbnailsEnabled opts then [20] else []) ++
        (if opts.generatePreview then [30] else []) ++ [40, 100] := by
  unfold processVideoWithAdaptiveStreaming at hok ⊢
  cases hp : probe io.probeExit io.probeParsed with
  | error e =>
    rw [hp] at hok
    simp [Except.isOk, Except.toBool] at hok
  | ok info =>
    rw [hp] at hok
    dsimp only at hok ⊢
    simp only [plannedVariants, hp]
    refine ⟨by simp [Except.isOk, Except.toBool], ?_⟩
    cases hth : (if thumbnailsEnabled opts then
        generateThumbnails (Except.ok info) io.thumbExit (outputDir ++ "/thumbnails")
          (effectiveThumbnailCount opts)
      else Except.ok []) with
    | error e =>
      rw [hth] at hok
      simp [Except.isOk, Except.toBool] at hok
    | ok thumbnails =>
      rw [hth] at hok
      dsimp only at hok ⊢
      cases hpr : (if opts.generatePreview then
          Except.map (fun _ => some (outputDir ++ "/preview.mp4")) (transcodeOutcome io)
        else Except.ok none) with
      | error e =>
        rw [hpr] at hok
        simp [Except.isOk, Except.toBool] at hok
      | ok preview =>
        rw [hpr] at hok
        dsimp only at hok ⊢
        cases hhls : createHLSPlaylist io.hlsExit outputDir
            (generateOptimalVariants info.width info.height info.duration) with
        | error e =>
          rw [hhls] at hok
          simp [Except.isOk, Except.toBool] at hok
        | ok hls =>
          simp [Except.isOk, Except.toBool]

/-- The last element of a cons-append-singleton list. -/
lemma getLast?_cons_append_singleton {α : Type} (x y : α) (l : List α) :
    (x :: (l ++ [y])).getLast? = some y := by
  rw [← List.cons_append, List.getLast?_append_cons]
  rfl

/-- When the pipeline fails, the job's final stored state has status
`error`. -/
lemma jobStates_error (io : StageOutcomes) (outputDir : String)
    (opts : ProcessOptions) (st : Nat) (e : String)
    (hr : (processVideoWithAdaptiveStreaming io outputDir opts).1 = .error e) :
    ((jobStates io outputDir opts st).getLast?).map JobEntry.status =
      some JobStatus.error := by
  unfold jobStates processJobStates
  dsimp only
  rw [hr]
  dsimp only
  rw [getLast?_cons_append_singleton]
  rfl

/-- When the pipeline succeeds, the job ends `completed` and the stored
progress values are `0, 0, log…, 100`. -/
lemma jobStates_ok (io : StageOutcomes) (outputDir : String)
    (opts : ProcessOptions) (st : Nat) (res : PipelineResult)
    (hr : (processVideoWithAdaptiveStreaming io outputDir opts).1 = .ok res) :
    (jobStates io outputDir opts st).map JobEntry.progress =
      (0 :: 0 :: (processVideoWithAdaptiveStreaming io outputDir opts).2) ++ [100] ∧
    ((jobStates io outputDir opts st).getLast?).map JobEntry.status =
      some JobStatus.completed := by
  unfold jobStates processJobStates
  dsimp only
  rw [hr]
  dsimp only
  constructor
  · rw [List.map_cons, List.map_append, progress_scanl]
    rfl
  · rw [getLast?_cons_append_singleton]
    rfl

/-! ## Claims -/

/-- C4, counterexample: `planVariants(480,360,10)` does not return the
fallback variant capped at the source's own dimensions — it returns the
`360p` ladder rendition (the 360-pixel source height qualifies for the 360p
rung), whose 640-pixel width exceeds the 480-pixel source width. -/
theorem C4_counterexample :
    generateOptimalVariants 480 360 10 = [ladderVariant ⟨"360p", 640, 360, 800, 360⟩] ∧
    generateOptimalVariants 480 360 10 ≠ [autoVariant 480 360] ∧
    (generateOptimalVariants 480 360 10).map (fun v => v.width) = [640] := by
  refine ⟨?_, ?_, ?_⟩ <;> decide

/-- C4, amended: `planVariants(480,360,10)` returns exactly one variant, the
`360p` ladder rendition (640×360, 800 kbps); the `auto` fallback capped at
`min(source, 854×480)` is emitted only when the source height is below the
smallest 360-pixel rung. -/
theorem C4_amended_planner (w h : Nat) (d : ℚ) (hlt : h < 360) :
    generateOptimalVariants 480 360 10 = [ladderVariant ⟨"360p", 640, 360, 800, 360⟩] ∧
    generateOptimalVariants w h d = [autoVariant w h] ∧
    (autoVariant w h).width ≤ 854 ∧ (autoVariant w h).width ≤ w ∧
    (autoVariant w h).height ≤ 480 ∧ (autoVariant w h).height ≤ h := by
  have h1080 : ¬ 1080 ≤ h := by omega
  have h720 : ¬ 720 ≤ h := by omega
  have h480 : ¬ 480 ≤ h := by omega
  have h360 : ¬ 360 ≤ h := by omega
  refine ⟨by decide, ?_, ?_, ?_, ?_, ?_⟩
  · simp [generateOptimalVariants_eq, h1080, h720, h480, h360]
  · simp [autoVariant]
  · simp [autoVariant]
  · simp [autoVariant]
  · simp [autoVariant]

/-- C4, witness: at a 100×200 source only the fallback is planned. -/
theorem C4_amended_witness :
    generateOptimalVariants 100 200 7 = [autoVariant 100 200] :=
  (C4_amended_planner 100 200 7 (by decide)).2.1

/-- C5: a ladder rendition is included iff the source height reaches that
rendition's rung (never upscaling past it), the planner always returns at
least one variant, and `planVariants(1920,1080,600)` is exactly the
four-entry ascending ladder `360p, 480p, 720p, 1080p`. -/
theorem C5_planner (w h : Nat) (d : ℚ) :
    (∀ c ∈ qualityConfigs,
      (ladderVariant c ∈ generateOptimalVariants w h d ↔ c.maxSourceHeight ≤ h)) ∧
    1 ≤ (generateOptimalVariants w h d).length ∧
    generateOptimalVariants 1920 1080 600 =
      [ladderVariant ⟨"360p", 640, 360, 800, 360⟩,
       ladderVariant ⟨"480p", 854, 480, 1200, 480⟩,
       ladderVariant ⟨"720p", 1280, 720, 2500, 720⟩,
       ladderVariant ⟨"1080p", 1920, 1080, 5000, 1080⟩] := by
  refine ⟨?_, ?_, by decide⟩
  · intro c hc
    rw [generateOptimalVariants_eq]
    simp only [qualityConfigs, List.mem_cons, List.not_mem_nil, or_false] at hc
    by_cases h1080 : 1080 ≤ h
    · have h720 : 720 ≤ h := by omega
      have h480 : 480 ≤ h := by omega
      have h360 : 360 ≤ h := by omega
      rw [if_pos h1080]
      rcases hc with rfl | rfl | rfl | rfl
      · exact iff_of_true (by decide) h360
      · exact iff_of_true (by decide) h480
      · exact iff_of_true (by decide) h720
      · exact iff_of_true (by decide) h1080
    · by_cases h720 : 720 ≤ h
      · have h480 : 480 ≤ h := by omega
        have h360 : 360 ≤ h := by omega
        rw [if_neg h1080, if_pos h720]
        rcases hc with rfl | rfl | rfl | rfl
        · exact iff_of_true (by decide) h360
        · exact iff_of_true (by decide) h480
        · exact iff_of_true (by decide) h720
        · exact iff_of_false (by decide) h1080
      · by_cases h480 : 480 ≤ h
        · have h360 : 360 ≤ h := by omega
          rw [if_neg h1080, if_neg h720, if_pos h480]
          rcases hc with rfl | rfl | rfl | rfl
          · exact iff_of_true (by decide) h360
          · exact iff_of_true (by decide) h480
          · exact iff_of_false (by decide) h720
          · exact iff_of_false (by decide) h1080
        · by_cases h360 : 360 ≤ h
          · rw [if_neg h1080, if_neg h720, if_neg h480, if_pos h360]
            rcases hc with rfl | rfl | rfl | rfl
            · exact iff_of_true (by decide) h360
            · exact iff_of_false (by decide) h480
            · exact iff_of_false (by decide) h720
            · exact iff_of_false (by decide) h1080
          · rw [if_neg h1080, if_neg h720, if_neg h480, if_neg h360]
            rcases hc with rfl | rfl | rfl | rfl
            · exact iff_of_false (by simp [ladderVariant, autoVariant]) h360
            · exact iff_of_false (by simp [ladderVariant, autoVariant]) h480
            · exact iff_of_false (by simp [ladderVariant, autoVariant]) h720
            · exact iff_of_false (by simp [ladderVariant, autoVariant]) h1080
  · rw [generateOptimalVariants_eq]
    split_ifs <;> simp

/-- C5, witness: the 720p rung is included for a 1280×720 source. -/
theorem C5_witness :
    ladderVariant ⟨"720p", 1280, 720, 2500, 720⟩ ∈ generateOptimalVariants 1280 720 60 ↔
      (⟨"720p", 1280, 720, 2500, 720⟩ : QualityConfig).maxSourceHeight ≤ 720 :=
  (C5_planner 1280 720 60).1 ⟨"720p", 1280, 720, 2500, 720⟩ (by decide)

/-- C7: for `count ≥ 1` and positive duration the thumbnail loop requests
exactly `count` timestamps, the `i`-th (0-based) being
`duration/(count+1) * (i+1)`, each strictly inside `(0, duration)`; for
`count = 5, duration = 100` they are `50/3, 100/3, 50, 200/3, 250/3`,
that is 16.67, 33.33, 50, 66.67, 83.33 up to rounding. -/
theorem C7_thumbnail_timestamps (duration : ℚ) (count : Nat)
    (hc : 1 ≤ count) (hd : 0 < duration) :
    (thumbnailTimestamps duration count).length = count ∧
    (∀ i, i < count →
      (thumbnailTimestamps duration count).getD i 0 =
        duration / (count + 1) * (i + 1)) ∧
    (∀ t ∈ thumbnailTimestamps duration count, 0 < t ∧ t < duration) ∧
    thumbnailTimestamps 100 5 = [50/3, 100/3, 50, 200/3, 250/3] := by
  have hc1 : (0 : ℚ) < (count : ℚ) + 1 := by positivity
  refine ⟨?_, ?_, ?_, by norm_num [thumbnailTimestamps, List.range']⟩
  · simp [thumbnailTimestamps, List.length_range']
  · intro i hi
    simp only [thumbnailTimestamps]
    rw [List.getD_eq_getElem?_getD, List.getElem?_map, List.getElem?_range' 1 1 hi]
    simp only [Option.map_some', Option.getD_some]
    push_cast
    ring
  · intro t ht
    simp only [thumbnailTimestamps, List.mem_map] at ht
    obtain ⟨i, hi, rfl⟩ := ht
    rw [List.mem_range'_1] at hi
    have hipos : (0 : ℚ) < (i : ℚ) := by exact_mod_cast hi.1
    constructor
    · exact mul_pos (div_pos hd hc1) hipos
    · rw [div_mul_eq_mul_div, div_lt_iff₀ hc1]
      have hilt : (i : ℚ) < (count : ℚ) + 1 := by
        have : i < count + 1 := by omega
        exact_mod_cast this
      exact mul_lt_mul_of_pos_left hilt hd

/-- C7, witness: the five timestamps for a 100-second source. -/
theorem C7_witness :
    thumbnailTimestamps 100 5 = [50/3, 100/3, 50, 200/3, 250/3] :=
  (C7_thumbnail_timestamps 100 5 (by decide) (by decide)).2.2.2

/-- C9: the thumbnail step succeeds iff every single extraction exits 0 —
one failure fails the whole step with an error, never a partial success —
and a successful step returns exactly one path per requested timestamp. -/
theorem C9_thumbnails_all_or_nothing (info : ProbeResult)
    (thumbExit : ℚ → String → Int) (outputDir : String) (count : Nat) :
    ((generateThumbnails (Except.ok info) thumbExit outputDir count).isOk ↔
      ∀ i ∈ List.range' 1 count,
        thumbExit (info.duration / (count + 1) * i) (thumbnailPath outputDir i) = 0) ∧
    (∀ ts, generateThumbnails (Except.ok info) thumbExit outputDir count = .ok ts →
      ts.length = count) := by
  constructor
  · simpa [generateThumbnails] using
      thumbSteps_isOk_iff thumbExit outputDir (info.duration / (count + 1))
        (List.range' 1 count)
  · intro ts hts
    simp only [generateThumbnails] at hts
    have hlen := thumbSteps_length thumbExit outputDir (info.duration / (count + 1))
      (List.range' 1 count) ts hts
    simpa using hlen

/-- C9, witness: three extractions that all exit 0 make the step succeed. -/
theorem C9_witness :
    (generateThumbnails (Except.ok sampleInfo) (fun _ _ => 0) "thumbs" 3).isOk :=
  (C9_thumbnails_all_or_nothing sampleInfo (fun _ _ => 0) "thumbs" 3).1.mpr (by decide)

/-- C8: `probe` fails when the tool exits non-zero, when output is
unparsable, or when no video stream is reported; a missing audio stream is
not an error and yields an empty audio codec; a missing duration or bitrate
defaults to 0 instead of failing the probe. -/
theorem C8_probe_spec (exitCode : Int) (data : FFprobeData) :
    (exitCode ≠ 0 → ∀ parsed, ¬ (probe exitCode parsed).isOk) ∧
    ¬ (probe 0 none).isOk ∧
    (data.streams.find? (fun s => s.codec_type = "video") = none →
      ¬ (probe 0 (some data)).isOk) ∧
    (∀ videoStream,
      data.streams.find? (fun s => s.codec_type = "video") = some videoStream →
      ∃ r, probe 0 (some data) = .ok r ∧
        (data.streams.find? (fun s => s.codec_type = "audio") = none →
          r.codecs.audio = "") ∧
        (data.format.duration = none → r.duration = 0) ∧
        (data.format.bit_rate = none → r.bitrate = 0)) := by
  refine ⟨?_, ?_, ?_, ?_⟩
  · intro hne parsed
    simp [probe, hne, Except.isOk, Except.toBool]
  · simp [probe, Except.isOk, Except.toBool]
  · intro hv
    simp [probe, hv, Except.isOk, Except.toBool]
  · intro videoStream hv
    refine ⟨{ duration := data.format.duration.getD 0
            , width := videoStream.width.getD 0
            , height := videoStream.height.getD 0
            , bitrate := data.format.bit_rate.getD 0
            , fps := evalFrameRate (videoStream.r_frame_rate.getD "0/1")
            , format := data.format.format_name.getD ""
            , codecs :=
              { video := videoStream.codec_name.getD ""
              , audio := ((data.streams.find? (fun s => s.codec_type = "audio")).bind
                  (fun s => s.codec_name)).getD "" } }, ?_, ?_, ?_, ?_⟩
    · simp [probe, hv]
    · intro ha
      simp [ha]
    · intro hdur
      simp [hdur]
    · intro hbr
      simp [hbr]

/-- C8, witness: a non-zero tool exit fails the probe of a document that
would otherwise succeed. -/
theorem C8_witness : ¬ (probe 3 (some sparseProbeData)).isOk :=
  (C8_probe_spec 3 sparseProbeData).1 (by decide) (some sparseProbeData)

/-- C1, counterexample: with a 1920×1080 source planning four variants and
only the `480p` encode failing (3 of 4 succeed), the job ends with status
`error`, not `completed` — partial success is not tolerated. -/
theorem C1_counterexample :
    plannedVariants partialFailOutcomes =
      [ladderVariant ⟨"360p", 640, 360, 800, 360⟩,
       ladderVariant ⟨"480p", 854, 480, 1200, 480⟩,
       ladderVariant ⟨"720p", 1280, 720, 2500, 720⟩,
       ladderVariant ⟨"1080p", 1920, 1080, 5000, 1080⟩] ∧
    ((plannedVariants partialFailOutcomes).filter
        (fun v => partialFailOutcomes.hlsExit v ≠ 0)).map (fun v => v.name) = ["480p"] ∧
    ((jobStates partialFailOutcomes "out" ⟨none, none, false⟩ 0).getLast?).map
        JobEntry.status = some JobStatus.error := by
  refine ⟨by decide, by decide, by decide⟩

/-- C1, amended: playlist creation succeeds iff every planned variant encode
succeeds — a single failure rejects `createHLSPlaylist` whole — and a job
ends `completed` only when every planned variant encode succeeded. -/
theorem C1_amended_all_or_nothing (io : StageOutcomes) (outputDir : String)
    (opts : ProcessOptions) (st : Nat) :
    ((createHLSPlaylist io.hlsExit outputDir (plannedVariants io)).isOk ↔
      ∀ v ∈ plannedVariants io, io.hlsExit v = 0) ∧
    (((jobStates io outputDir opts st).getLast?).map JobEntry.status =
        some JobStatus.completed →
      ∀ v ∈ plannedVariants io, io.hlsExit v = 0) := by
  have hiff : (createHLSPlaylist io.hlsExit outputDir (plannedVariants io)).isOk ↔
      ∀ v ∈ plannedVariants io, io.hlsExit v = 0 := by
    have hloop := hlsLoop_isOk_iff io.hlsExit "#EXTM3U\n#EXT-X-VERSION:6\n"
      (plannedVariants io)
    unfold createHLSPlaylist
    dsimp only
    cases hx : hlsLoop io.hlsExit "#EXTM3U\n#EXT-X-VERSION:6\n" (plannedVariants io) with
    | error e =>
      rw [hx] at hloop
      simpa [Except.map, Except.isOk, Except.toBool] using hloop
    | ok s =>
      rw [hx] at hloop
      simpa [Except.map, Except.isOk, Except.toBool] using hloop
  refine ⟨hiff, ?_⟩
  intro hdone v hv
  cases hr : (processVideoWithAdaptiveStreaming io outputDir opts).1 with
  | error e =>
    rw [jobStates_error io outputDir opts st e hr] at hdone
    simp at hdone
  | ok res =>
    have hok : (processVideoWithAdaptiveStreaming io outputDir opts).1.isOk := by
      rw [hr]; rfl
    exact hiff.mp (pipeline_ok_characterization io outputDir opts hok).2.1 v hv

/-- C1, witness: when every encode succeeds the playlist succeeds. -/
theorem C1_amended_witness :
    (createHLSPlaylist okOutcomes.hlsExit "out" (plannedVariants okOutcomes)).isOk :=
  (C1_amended_all_or_nothing okOutcomes "out" ⟨none, none, false⟩ 0).1.mpr (by decide)

/-- C6: for any job whose final stored state is `completed`, the stored
progress values are non-decreasing over the run and end at 100. -/
theorem C6_progress_monotone (io : StageOutcomes) (outputDir : String)
    (opts : ProcessOptions) (st : Nat)
    (hdone : ((jobStates io outputDir opts st).getLast?).map JobEntry.status =
      some JobStatus.completed) :
    List.Chain' (· ≤ ·) ((jobStates io outputDir opts st).map JobEntry.progress) ∧
    ((jobStates io outputDir opts st).map JobEntry.progress).getLast? = some 100 := by
  cases hr : (processVideoWithAdaptiveStreaming io outputDir opts).1 with
  | error e =>
    rw [jobStates_error io outputDir opts st e hr] at hdone
    simp at hdone
  | ok res =>
    have hok : (processVideoWithAdaptiveStreaming io outputDir opts).1.isOk := by
      rw [hr]; rfl
    obtain ⟨hmap, -⟩ := jobStates_ok io outputDir opts st res hr
    have hlog := (pipeline_ok_characterization io outputDir opts hok).2.2
    rw [hmap, hlog]
    by_cases ht : thumbnailsEnabled opts <;> by_cases hp : opts.generatePreview <;>
      simp [ht, hp]

/-- C6, witness: a fully successful run has non-decreasing progress ending
at 100. -/
theorem C6_witness :
    List.Chain' (· ≤ ·)
      ((jobStates okOutcomes "out" ⟨none, none, false⟩ 0).map JobEntry.progress) ∧
    ((jobStates okOutcomes "out" ⟨none, none, false⟩ 0).map JobEntry.progress).getLast? =
      some 100 :=
  C6_progress_monotone okOutcomes "out" ⟨none, none, false⟩ 0 (by decide)

/-- C2, counterexample: cancelling a queued job returns `true` but the entry
is deleted outright — the subsequent status query returns nothing, so the
job is never stored in any terminal `cancelled` state (no such status
exists in the registry's status union). -/
theorem C2_counterexample :
    (cancelJob [("a", { status := JobStatus.queued, progress := 0, startTime := some 0 })]
      "a").1 = true ∧
    getJobStatus
      (cancelJob [("a", { status := JobStatus.queued, progress := 0, startTime := some 0 })]
        "a").2 "a" = none := by
  refine ⟨by decide, by decide⟩

/-- C2, amended: for a stored job, `cancelJob` on a `queued` job returns
`true` and removes the entry (a later `getJobStatus` returns nothing, and
there is no entry left to ever transition to `processing`); on a
`processing` job it returns `false` and leaves the registry unchanged, so
the running pipeline completes or errors normally. -/
theorem C2_amended_cancel (q : Queue) (jobId : String) (e : JobEntry)
    (hget : qget q jobId = some e) :
    (e.status = JobStatus.queued →
      (cancelJob q jobId).1 = true ∧
      getJobStatus (cancelJob q jobId).2 jobId = none) ∧
    (e.status = JobStatus.processing →
      (cancelJob q jobId).1 = false ∧ (cancelJob q jobId).2 = q) := by
  constructor
  · intro hq
    unfold cancelJob
    rw [hget]
    dsimp only
    rw [if_pos hq]
    exact ⟨rfl, qget_qdelete q jobId⟩
  · intro hp
    unfold cancelJob
    rw [hget]
    dsimp only
    rw [if_neg (by simp [hp])]
    exact ⟨rfl, rfl⟩

/-- C2, witness: on the sample registry, cancelling the processing job "b"
returns false and leaves the registry unchanged. -/
theorem C2_witness :
    (cancelJob sampleQueue "b").1 = false ∧ (cancelJob sampleQueue "b").2 = sampleQueue :=
  (C2_amended_cancel sampleQueue "b"
    { status := JobStatus.processing, progress := 40, startTime := some 1 } (by decide)).2 rfl

/-- C3, counterexample: with job "a" stored as `processing` (non-terminal),
`addJob` does not reject with any duplicate error — it overwrites the entry
with a fresh `queued` job, changing the existing job's state. -/
theorem C3_counterexample :
    getJobStatus
        [("a", { status := JobStatus.processing, progress := 42, startTime := some 1 })]
        "a" =
      some { status := JobStatus.processing, progress := 42, startTime := some 1 } ∧
    getJobStatus
        (addJob
          [("a", { status := JobStatus.processing, progress := 42, startTime := some 1 })]
          "a" 5) "a" =
      some { status := JobStatus.queued, progress := 0, startTime := some 5 } := by
  refine ⟨by decide, by decide⟩

/-- C3, amended: `addJob` performs no duplicate check: whatever is stored
under the id — terminal or not — it unconditionally overwrites the entry
with a fresh `queued` job of progress 0; it has no rejection path and no
`DuplicateJobError` exists in the code. -/
theorem C3_amended_addJob (q : Queue) (jobId : String) (st : Nat) :
    getJobStatus (addJob q jobId st) jobId =
      some { status := JobStatus.queued, progress := 0, result := none
           , error := none, startTime := some st } := by
  unfold addJob getJobStatus
  exact qget_qset q jobId _

/-- C10: the status union stored in the registry is exactly
queued/processing/completed/error — no `cancelled` constructor exists — and
after a successful `cancelJob` the entry is deleted, so `getJobStatus`
returns not-found rather than a cancelled snapshot. -/
theorem C10_no_cancelled_state (q : Queue) (jobId : String)
    (hc : (cancelJob q jobId).1 = true) :
    getJobStatus (cancelJob q jobId).2 jobId = none ∧
    ∀ s : JobStatus, s = JobStatus.queued ∨ s = JobStatus.processing ∨
      s = JobStatus.completed ∨ s = JobStatus.error := by
  constructor
  · unfold cancelJob at hc ⊢
    cases hq : qget q jobId with
    | none =>
      rw [hq] at hc
      simp at hc
    | some job =>
      rw [hq] at hc
      dsimp only at hc ⊢
      by_cases hs : job.status = JobStatus.queued
      · rw [if_pos hs]
        exact qget_qdelete q jobId
      · rw [if_neg hs] at hc
        simp at hc
  · intro s
    cases s <;> simp

/-- C10, witness: deleting a queued job makes its status query return
nothing. -/
theorem C10_witness :
    getJobStatus
      (cancelJob [("j", { status := JobStatus.queued, progress := 0 })] "j").2 "j" = none :=
  (C10_no_cancelled_state [("j", { status := JobStatus.queued, progress := 0 })] "j"
    (by decide)).1

end VideoStreaming
